import Mathlib

/-!
Verification of the PaperCrawler pipeline (src/main.py) against its
specification.

The script is a single linear crawler: it reads a CSV ledger of previously
downloaded papers, scrapes one arXiv search-results page, filters the listed
entries against the ledger's titles, downloads each accepted paper's PDF and
appends the accepted records to the ledger.

Shallow embedding conventions:
* A rendered results page is modelled as the list of its `li.arxiv-result`
  entries, each entry carrying the text of its title / date / authors
  paragraphs and the `href` attributes of its anchors in document order
  (BeautifulSoup's `find` / `find_all` on a fixed element shape).
* Python's `re.search(r'originally announced (\w+ \d{4})', s)` is embedded as
  a direct scan (`searchAnnounced`); for this pattern the regex engine's
  backtracking never succeeds where the maximal-munch scan fails, so the scan
  is exact.
* `datetime.strptime(s, "%B %Y").strftime("%Y%m")` is embedded by
  `strptimeBY`, on strings of the shape the regex group produces
  (word, single space, four digits).  Month matching is case-insensitive as
  in CPython's `_strptime`; year 0 is out of `datetime`'s range and raises;
  `strftime("%Y")` is modelled unpadded (glibc behaviour) and `%m`
  zero-padded to two digits.
* The pandas CSV ledger is modelled as the list of its rows; `read_csv` /
  `to_csv` serialization is abstracted as the identity round-trip.
* The filesystem of the download directory is an association list from path
  to written bytes; `requests.get` is a caller-supplied total function from
  URL to an HTTP response (status and body) — `requests` does not raise on
  non-success statuses.
* Exceptions escaping the run are `Except.error`.
-/

namespace PaperCrawler

/-- Python `str.strip()` on a character list: drop leading and trailing
whitespace. -/
def wsStrip (l : List Char) : List Char :=
  List.rdropWhile Char.isWhitespace (List.dropWhile Char.isWhitespace l)

/-- Python `str.strip()` on a string. -/
def pyStrip (s : String) : String :=
  String.mk (wsStrip s.data)

/-- Python regex `\w` on ASCII input: letters, digits and underscore. -/
def isWordChar (c : Char) : Bool :=
  c.isAlphanum || c = '_'

/-- The literal part of the pattern `originally announced (\w+ \d{4})`. -/
def announcedLit : List Char :=
  ("originally announced ").data

/-- Try to match `originally announced (\w+ \d{4})` at the head of `s`,
returning the text of capture group 1.  The word run is maximal; shortening
it can never make the following literal space match, so this equals the
backtracking regex semantics. -/
def matchAnnouncedAt (s : List Char) : Option (List Char) :=
  if announcedLit.isPrefixOf s then
    let rest := s.drop announcedLit.length
    let w := rest.takeWhile isWordChar
    if w = [] then none
    else
      match rest.dropWhile isWordChar with
      | ' ' :: d1 :: d2 :: d3 :: d4 :: _ =>
        if d1.isDigit && d2.isDigit && d3.isDigit && d4.isDigit then
          some (w ++ (' ' :: [d1, d2, d3, d4]))
        else none
      | _ => none
  else none

/-- Python `re.search`: try the pattern at every start position, leftmost
match wins. -/
def searchAnnounced : List Char → Option (List Char)
  | [] => none
  | c :: cs =>
    match matchAnnouncedAt (c :: cs) with
    | some g => some g
    | none => searchAnnounced cs

/-- CPython `_strptime`'s full month-name table (`%B`), lowercased. -/
def monthTable : List (List Char × Nat) :=
  [("january".data, 1), ("february".data, 2), ("march".data, 3),
   ("april".data, 4), ("may".data, 5), ("june".data, 6),
   ("july".data, 7), ("august".data, 8), ("september".data, 9),
   ("october".data, 10), ("november".data, 11), ("december".data, 12)]

/-- Case-insensitive month-name lookup, as `_strptime` does for `%B`. -/
def monthLookup (w : List Char) : Option Nat :=
  (monthTable.find? (fun q => q.1 == w.map Char.toLower)).map (fun q => q.2)

/-- Decimal value of a digit string. -/
def natOfDigits (y : List Char) : Nat :=
  y.foldl (fun a c => 10 * a + (c.toNat - 48)) 0

/-- `strftime("%m")`: month zero-padded to two digits. -/
def twoDigitMonth (m : Nat) : String :=
  if m < 10 then "0" ++ Nat.repr m else Nat.repr m

/-- `datetime.strptime(s, "%B %Y").strftime("%Y%m")` on the strings produced
by the announcement regex (word, one space, four digits).  Unrecognized month
names and year 0 raise `ValueError`; `%Y` is rendered unpadded (glibc). -/
def strptimeBY (s : List Char) : Except String String :=
  let w := s.takeWhile (fun c => c != ' ')
  match s.dropWhile (fun c => c != ' ') with
  | ' ' :: y =>
    if y.length == 4 && y.all Char.isDigit then
      match monthLookup w with
      | none => .error "time data does not match format"
      | some m =>
        if natOfDigits y == 0 then .error "year 0 is out of range"
        else .ok (Nat.repr (natOfDigits y) ++ twoDigitMonth m)
    else .error "time data does not match format"
  | _ => .error "time data does not match format"

/-- One step of Python `str.replace("Authors:", "")`: left-to-right,
non-overlapping.  Fuel-driven so that it is structural; fuel is the input
length, which each step strictly decreases. -/
def removeAuthorsLabelAux : Nat → List Char → List Char
  | 0, _ => []
  | _, [] => []
  | n + 1, c :: cs =>
    if ("Authors:".data).isPrefixOf (c :: cs) then
      removeAuthorsLabelAux n (cs.drop 7)
    else
      c :: removeAuthorsLabelAux n cs

/-- Python `s.replace("Authors:", "")`. -/
def removeAuthorsLabel (s : List Char) : List Char :=
  removeAuthorsLabelAux s.length s

/-- `entry.find('p', class_='authors').text.replace('Authors:', '')
.split(',')[0].strip()`: the text before the first comma, label removed,
stripped. -/
def firstAuthorOf (authorsText : String) : String :=
  String.mk (wsStrip ((removeAuthorsLabel authorsText.data).takeWhile (fun c => c != ',')))

/-- One rendered `li.arxiv-result` element of the search page: the text of
its title, date and authors paragraphs, and the `href` attributes of its
anchor tags in document order. -/
structure Entry where
  title : String
  publishedInfo : String
  authors : String
  hrefs : List String
deriving DecidableEq

/-- The paper dictionary built by `fetch_arxiv_papers`. -/
structure Paper where
  downloadDate : String
  yearMonth : String
  title : String
  firstAuthor : String
  pdfLink : String
  journal : String
deriving DecidableEq

/-- `'pdf' in x` for an `href` value. -/
def hrefHasPdf (h : String) : Bool :=
  hasSub ("pdf".data) h.data
where
  /-- Substring containment on character lists. -/
  hasSub (pat : List Char) : List Char → Bool
    | [] => pat.isPrefixOf []
    | c :: cs => pat.isPrefixOf (c :: cs) || hasSub pat cs

/-- The body of the `for entry in entries` loop of `fetch_arxiv_papers` for a
single entry: `.ok none` means the entry is skipped (`continue` / no
append), `.ok (some p)` means `p` is appended, `.error` means an uncaught
exception aborts the run. -/
def parseEntry (downloadedTitles : List String) (today : String) (e : Entry) :
    Except String (Option Paper) :=
  let title := pyStrip e.title
  if title ∈ downloadedTitles then .ok none
  else
    match searchAnnounced (pyStrip e.publishedInfo).data with
    | none => .ok none
    | some dateStr =>
      match strptimeBY dateStr with
      | .error err => .error err
      | .ok yearMonth =>
        match e.hrefs.find? hrefHasPdf with
        | none => .ok none
        | some pdfLink =>
          .ok (some { downloadDate := today, yearMonth := yearMonth, title := title,
                      firstAuthor := firstAuthorOf e.authors, pdfLink := pdfLink,
                      journal := "arXiv" })

/-- The accumulation loop of `fetch_arxiv_papers`: break once `num_papers`
records are collected, otherwise process entries in document order. -/
def fetchLoop (downloadedTitles : List String) (today : String) (numPapers : Nat) :
    List Entry → List Paper → Except String (List Paper)
  | [], papers => .ok papers
  | e :: rest, papers =>
    if papers.length ≥ numPapers then .ok papers
    else
      match parseEntry downloadedTitles today e with
      | .error err => .error err
      | .ok none => fetchLoop downloadedTitles today numPapers rest papers
      | .ok (some p) => fetchLoop downloadedTitles today numPapers rest (papers ++ [p])

/-- `fetch_arxiv_papers`, given the fetched page's entries.  The query terms
and date range only shape the search URL handed to the browser, so they do
not appear here; `num_papers` is the requested paper count. -/
def fetch_arxiv_papers (entries : List Entry) (downloadedTitles : List String)
    (today : String) (numPapers : Nat) : Except String (List Paper) :=
  fetchLoop downloadedTitles today numPapers entries []

/-- The per-entry outcome as an `Option`: the record the loop would append,
if any.  (`none` covers both skips and the error case, which never reaches an
append.) -/
def parsedOpt (downloadedTitles : List String) (today : String) (e : Entry) : Option Paper :=
  match parseEntry downloadedTitles today e with
  | .ok (some p) => some p
  | _ => none

/-- One row of `Papers/paper_list.csv` (columns Download Date, YearMonth,
Title, Journal, First Author). -/
structure Row where
  downloadDate : String
  yearMonth : String
  title : String
  journal : String
  firstAuthor : String
deriving DecidableEq

/-- The persisted ledger: the CSV's rows in file order. -/
abbrev Store := List Row

/-- `read_downloaded_papers`: read the whole CSV. -/
def read_downloaded_papers (store : Store) : List Row :=
  store

/-- `save_all_paper_info`: read the existing CSV, concatenate the new batch
(`pd.concat([df, new_df])`) and write the result back. -/
def save_all_paper_info (store : Store) (allPaperInfo : List Row) : Store :=
  read_downloaded_papers store ++ allPaperInfo

/-- An HTTP response as `requests.get` returns it: a status code and the body
bytes (`response.content`).  `requests` does not raise on non-success
statuses. -/
structure Response where
  status : Nat
  content : List UInt8
deriving DecidableEq

/-- The download directory's files: an association list from path to written
bytes, in creation order. -/
abbrev FS := List (String × List UInt8)

/-- `os.path.exists` / file read on the modelled filesystem. -/
def fsLookup : FS → String → Option (List UInt8)
  | [], _ => none
  | (k, v) :: rest, p => if k = p then some v else fsLookup rest p

/-- `paper['Title'].replace(':', '').replace('/', '-')` in `download_papers`:
colons removed, slashes replaced by dashes. -/
def sanitizeTitle (t : String) : String :=
  String.mk (pyReplaceChar '/' ['-'] (pyReplaceChar ':' [] t.data))
where
  /-- Python `str.replace(old, new)` for a one-character pattern. -/
  pyReplaceChar (old : Char) (new : List Char) : List Char → List Char
    | [] => []
    | c :: cs => (if c = old then new else [c]) ++ pyReplaceChar old new cs

/-- `download_papers`: for each paper derive the target path
`<dir>/<YearMonth>_<sanitized title>.pdf`; if absent, GET the PDF link and
write the body, printing `Downloaded: …`, otherwise print
`Already downloaded: …`.  Returns the final filesystem and the printed lines
in order. -/
def download_papers (http : String → Response) (dir : String) :
    List Paper → FS → FS × List String
  | [], fs => (fs, [])
  | p :: rest, fs =>
    let t := sanitizeTitle p.title
    let path := dir ++ "/" ++ p.yearMonth ++ "_" ++ t ++ ".pdf"
    if (fsLookup fs path).isSome then
      let r := download_papers http dir rest fs
      (r.1, ("Already downloaded: " ++ t) :: r.2)
    else
      let r := download_papers http dir rest (fs ++ [(path, (http p.pdfLink).content)])
      (r.1, ("Downloaded: " ++ p.yearMonth ++ " " ++ t) :: r.2)

/-- `BASE_DIR` of the script. -/
def BASE_DIR : String := "Papers"

/-- `main`: read the ledger, fetch and parse the page, download, then append
the produced batch to the ledger.  Returns the final download-directory
filesystem, the printed download lines and the final ledger; an uncaught
parse exception aborts the run before any download or ledger write. -/
def mainRun (entries : List Entry) (http : String → Response) (today : String)
    (numPapers : Nat) (fs : FS) (store : Store) :
    Except String (FS × List String × Store) :=
  let downloadDir := BASE_DIR ++ "/" ++ today
  let downloadedTitles := (read_downloaded_papers store).map Row.title
  match fetch_arxiv_papers entries downloadedTitles today numPapers with
  | .error err => .error err
  | .ok papers =>
    let dl := download_papers http downloadDir papers fs
    let allPaperInfo := papers.map (fun p =>
      { downloadDate := today, yearMonth := p.yearMonth, title := p.title,
        journal := p.journal, firstAuthor := p.firstAuthor : Row })
    .ok (dl.1, dl.2, save_all_paper_info store allPaperInfo)

/-! ### Helper lemmas -/

lemma dropWhile_length_le {α : Type} (p : α → Bool) :
    ∀ l : List α, (List.dropWhile p l).length ≤ l.length := by
  intro l
  induction l with
  | nil => simp
  | cons a l ih =>
    rw [List.dropWhile_cons]
    split
    · exact le_trans ih (by simp)
    · simp

lemma dropWhile_head_false {α : Type} (p : α → Bool) (a : α) (l : List α)
    (h : List.dropWhile p (a :: l) = a :: l) : p a = false := by
  by_contra hp
  rw [Bool.not_eq_false] at hp
  rw [List.dropWhile_cons, if_pos hp] at h
  have hle := dropWhile_length_le p l
  rw [h] at hle
  simp at hle

lemma dropWhile_rdropWhile_self {α : Type} (p : α → Bool) (l : List α)
    (h : List.dropWhile p l = l) :
    List.dropWhile p (List.rdropWhile p l) = List.rdropWhile p l := by
  cases hr : List.rdropWhile p l with
  | nil => rfl
  | cons a as =>
    obtain ⟨t, ht⟩ := List.rdropWhile_prefix p l
    rw [hr, List.cons_append] at ht
    rw [← ht] at h
    have hpa : p a = false := dropWhile_head_false p a (as ++ t) h
    rw [List.dropWhile_cons, if_neg (by simp [hpa])]

lemma wsStrip_idem (l : List Char) : wsStrip (wsStrip l) = wsStrip l := by
  unfold wsStrip
  rw [dropWhile_rdropWhile_self _ _ (List.dropWhile_idempotent _ _),
    List.rdropWhile_idempotent]

lemma pyStrip_idem (s : String) : pyStrip (pyStrip s) = pyStrip s := by
  unfold pyStrip
  rw [wsStrip_idem]

/-- Inverting a successful `parseEntry`: the emitted record's title is the
entry's stripped title and that title was absent from the known-titles
list. -/
lemma parseEntry_ok_some (dt : List String) (td : String) (e : Entry) (p : Paper)
    (h : parseEntry dt td e = .ok (some p)) :
    p.title = pyStrip e.title ∧ pyStrip e.title ∉ dt := by
  simp only [parseEntry] at h
  by_cases hmem : pyStrip e.title ∈ dt
  · rw [if_pos hmem] at h
    simp at h
  · refine ⟨?_, hmem⟩
    rw [if_neg hmem] at h
    split at h
    · simp at h
    · split at h
      · simp at h
      · split at h
        · simp at h
        · cases h
          rfl

lemma parsedOpt_some (dt : List String) (td : String) (e : Entry) (p : Paper)
    (h : parsedOpt dt td e = some p) :
    p.title = pyStrip e.title ∧ pyStrip e.title ∉ dt := by
  unfold parsedOpt at h
  cases hpe : parseEntry dt td e with
  | error err =>
    rw [hpe] at h
    simp at h
  | ok o =>
    cases o with
    | none =>
      rw [hpe] at h
      simp at h
    | some q =>
      rw [hpe] at h
      simp only [Option.some.injEq] at h
      rw [← h]
      exact parseEntry_ok_some dt td e q hpe

/-- Everything a successful run of the accumulation loop emits, beyond the
accumulator it started from, is an order-preserving selection of the
per-entry results in document order. -/
lemma fetchLoop_ok_append (dt : List String) (td : String) (n : Nat) :
    ∀ (es : List Entry) (acc ps : List Paper),
      fetchLoop dt td n es acc = .ok ps →
      ∃ tl, ps = acc ++ tl ∧ tl.Sublist (es.filterMap (parsedOpt dt td)) := by
  intro es
  induction es with
  | nil =>
    intro acc ps h
    simp only [fetchLoop, Except.ok.injEq] at h
    exact ⟨[], by simp [h], by simp⟩
  | cons e rest ih =>
    intro acc ps h
    simp only [fetchLoop] at h
    split at h
    · next hge =>
      cases h
      exact ⟨[], by simp, by simp⟩
    · next hlt =>
      split at h
      · next err heq => exact absurd h (by simp)
      · next heq =>
        obtain ⟨tl, hps, hsub⟩ := ih acc ps h
        have hnone : parsedOpt dt td e = none := by simp [parsedOpt, heq]
        exact ⟨tl, hps, by simpa [List.filterMap_cons, hnone] using hsub⟩
      · next p heq =>
        obtain ⟨tl, hps, hsub⟩ := ih (acc ++ [p]) ps h
        have hsome : parsedOpt dt td e = some p := by simp [parsedOpt, heq]
        refine ⟨p :: tl, by simpa [List.append_assoc] using hps, ?_⟩
        rw [List.filterMap_cons, hsome]
        exact hsub.cons₂ p

/-- A successful run of the accumulation loop never grows the accumulator
beyond the requested count. -/
lemma fetchLoop_ok_length (dt : List String) (td : String) (n : Nat) :
    ∀ (es : List Entry) (acc ps : List Paper), acc.length ≤ n →
      fetchLoop dt td n es acc = .ok ps → ps.length ≤ n := by
  intro es
  induction es with
  | nil =>
    intro acc ps hle h
    simp only [fetchLoop, Except.ok.injEq] at h
    rw [← h]
    exact hle
  | cons e rest ih =>
    intro acc ps hle h
    simp only [fetchLoop] at h
    split at h
    · next hge =>
      cases h
      exact hle
    · next hlt =>
      split at h
      · next err heq => exact absurd h (by simp)
      · next heq => exact ih acc ps hle h
      · next p heq =>
        refine ih (acc ++ [p]) ps ?_ h
        rw [List.length_append]
        simp only [List.length_singleton]
        omega

/-- Skipped entries leave the accumulation loop unchanged. -/
lemma fetchLoop_skip (dt : List String) (td : String) (e : Entry)
    (h : parseEntry dt td e = .ok none) (n : Nat) (rest : List Entry) (acc : List Paper) :
    fetchLoop dt td n (e :: rest) acc = fetchLoop dt td n rest acc := by
  by_cases hlen : acc.length ≥ n
  · cases rest with
    | nil => simp [fetchLoop, hlen]
    | cons r rs => simp [fetchLoop, hlen]
  · simp [fetchLoop, hlen, h]

lemma filterMap_map_sublist {α β γ : Type} (g : α → Option β) (f : β → γ) (h : α → γ)
    (hg : ∀ a b, g a = some b → f b = h a) :
    ∀ l : List α, ((l.filterMap g).map f).Sublist (l.map h) := by
  intro l
  induction l with
  | nil => simp
  | cons a l ih =>
    cases hga : g a with
    | none =>
      rw [List.map_cons, List.filterMap_cons_none hga]
      exact ih.cons (h a)
    | some b =>
      rw [List.filterMap_cons_some hga, List.map_cons, List.map_cons, hg a b hga]
      exact ih.cons₂ (h a)

lemma fsLookup_append_of_some (fs : FS) (x : String × List UInt8) (k : String)
    (v : List UInt8) (h : fsLookup fs k = some v) : fsLookup (fs ++ [x]) k = some v := by
  induction fs with
  | nil => simp [fsLookup] at h
  | cons y fs ih =>
    obtain ⟨yk, yv⟩ := y
    rw [List.cons_append]
    simp only [fsLookup] at h ⊢
    split at h
    · rw [if_pos (by assumption)]
      exact h
    · rw [if_neg (by assumption)]
      exact ih h

lemma fsLookup_append_self (fs : FS) (k : String) (v : List UInt8)
    (h : fsLookup fs k = none) : fsLookup (fs ++ [(k, v)]) k = some v := by
  induction fs with
  | nil => simp [fsLookup]
  | cons y fs ih =>
    obtain ⟨yk, yv⟩ := y
    rw [List.cons_append]
    simp only [fsLookup] at h ⊢
    split at h
    · exact absurd h (by simp)
    · rw [if_neg (by assumption)]
      exact ih h

/-- `download_papers` never overwrites an existing file. -/
lemma download_papers_preserves (http : String → Response) (dir : String) :
    ∀ (l : List Paper) (fs : FS) (k : String) (v : List UInt8),
      fsLookup fs k = some v → fsLookup (download_papers http dir l fs).1 k = some v := by
  intro l
  induction l with
  | nil =>
    intro fs k v h
    simpa [download_papers] using h
  | cons p rest ih =>
    intro fs k v h
    simp only [download_papers]
    split
    · exact ih fs k v h
    · exact ih _ k v (fsLookup_append_of_some fs _ k v h)

lemma takeWhile_until_space (w y : List Char) (hw : ∀ c ∈ w, c ≠ ' ') :
    (w ++ ' ' :: y).takeWhile (fun c => c != ' ') = w := by
  induction w with
  | nil => simp [List.takeWhile_cons]
  | cons c w ih =>
    have hc : (c != ' ') = true := by
      simpa using hw c (by simp)
    rw [List.cons_append, List.takeWhile_cons, hc]
    simp only [ih (fun d hd => hw d (by simp [hd]))]
    simp

lemma dropWhile_until_space (w y : List Char) (hw : ∀ c ∈ w, c ≠ ' ') :
    (w ++ ' ' :: y).dropWhile (fun c => c != ' ') = ' ' :: y := by
  induction w with
  | nil => simp [List.dropWhile_cons]
  | cons c w ih =>
    have hc : (c != ' ') = true := by
      simpa using hw c (by simp)
    rw [List.cons_append, List.dropWhile_cons, hc]
    simp only [ih (fun d hd => hw d (by simp [hd]))]
    simp

lemma pyReplaceChar_colon (l : List Char) :
    sanitizeTitle.pyReplaceChar ':' [] l = l.filter (fun c => c != ':') := by
  induction l with
  | nil => rfl
  | cons c l ih =>
    simp only [sanitizeTitle.pyReplaceChar, List.filter_cons]
    by_cases hc : c = ':'
    · simp [hc, ih]
    · simp only [if_neg hc, ih]
      rw [if_pos (by simpa using hc)]
      rfl

lemma pyReplaceChar_slash (l : List Char) :
    sanitizeTitle.pyReplaceChar '/' ['-'] l =
      l.map (fun c => if c = '/' then '-' else c) := by
  induction l with
  | nil => rfl
  | cons c l ih =>
    simp only [sanitizeTitle.pyReplaceChar, List.map_cons]
    by_cases hc : c = '/'
    · simp [hc, ih]
    · simp [if_neg hc, ih]

/-- The code's sanitization, characterized: colons are removed, then slashes
are replaced by dashes. -/
lemma sanitizeTitle_eq (t : String) :
    sanitizeTitle t =
      String.mk ((t.data.filter (fun c => c != ':')).map
        (fun c => if c = '/' then '-' else c)) := by
  unfold sanitizeTitle
  rw [pyReplaceChar_colon, pyReplaceChar_slash]

/-! ### Concrete sample data (used by witnesses and counterexamples) -/

/-- A well-formed results-page entry. -/
def sampleEntry : Entry :=
  { title := "  Paper Y "
    publishedInfo := "Submitted 1 June, 2024; originally announced June 2024."
    authors := "Authors: Alice Smith, Bob Jones"
    hrefs := ["https://arxiv.org/abs/2406.00001", "https://arxiv.org/pdf/2406.00001"] }

/-- The record `fetch_arxiv_papers` produces for `sampleEntry`. -/
def samplePaperY : Paper :=
  { downloadDate := "20251012", yearMonth := "202406", title := "Paper Y",
    firstAuthor := "Alice Smith", pdfLink := "https://arxiv.org/pdf/2406.00001",
    journal := "arXiv" }

/-- An entry whose stripped title duplicates a ledger title and whose
announcement date would be fatal to parse ("Foo" is no month name). -/
def dupBadDateEntry : Entry :=
  { title := " Paper X "
    publishedInfo := "originally announced Foo 2024"
    authors := ""
    hrefs := [] }

/-- An entry with no parseable announcement date. -/
def noDateEntry : Entry :=
  { title := "Paper Z"
    publishedInfo := "there is no announcement date here"
    authors := "Authors: Carol"
    hrefs := ["https://arxiv.org/pdf/2406.00002"] }

/-- Two distinct page entries carrying the same title. -/
def dupTitleEntryA : Entry :=
  { title := "Dup"
    publishedInfo := "Submitted 1 June, 2024; originally announced June 2024."
    authors := "Authors: Ann Author"
    hrefs := ["https://arxiv.org/pdf/2406.11111"] }

/-- Second entry with the same title as `dupTitleEntryA` but a different PDF
link: a distinct entry in the listing. -/
def dupTitleEntryB : Entry :=
  { title := "Dup"
    publishedInfo := "Submitted 2 June, 2024; originally announced June 2024."
    authors := "Authors: Bea Writer"
    hrefs := ["https://arxiv.org/pdf/2406.22222"] }

/-- An HTTP stub that always succeeds with an empty body. -/
def httpZero : String → Response := fun _ => { status := 200, content := [] }

/-- An HTTP stub that always returns 404 with a one-byte body: a non-success
response that still yields content. -/
def http404 : String → Response := fun _ => { status := 404, content := [7] }

/-- A pre-existing ledger row. -/
def oldRow : Row :=
  { downloadDate := "20240101", yearMonth := "202312", title := "Old Paper",
    journal := "arXiv", firstAuthor := "Olga Older" }

/-! ### Claim theorems -/

/-- C2: for every prior ledger contents and every batch of new records,
`appendBatch` (`save_all_paper_info`) followed by `loadAll`
(`read_downloaded_papers`) yields exactly the prior records followed by the
new batch, in that order, with no pre-existing record removed, reordered, or
duplicated. -/
theorem C2_append_then_load_roundtrip (store : Store) (batch : List Row) :
    read_downloaded_papers (save_all_paper_info store batch) =
      read_downloaded_papers store ++ batch := rfl

/-- C3: for every markup input (modelled as the page's entry list), every
known-titles set and every requested maximum count, the parser emits no
record whose whitespace-trimmed title is a member of the supplied
known-titles list. -/
theorem C3_no_known_title_emitted (entries : List Entry) (dt : List String)
    (td : String) (n : Nat) (ps : List Paper)
    (h : fetch_arxiv_papers entries dt td n = .ok ps) :
    ∀ p ∈ ps, pyStrip p.title ∉ dt := by
  intro p hp
  obtain ⟨tl, htl, hsub⟩ := fetchLoop_ok_append dt td n entries [] ps h
  rw [htl, List.nil_append] at hp
  have hmem : p ∈ entries.filterMap (parsedOpt dt td) := hsub.subset hp
  rw [List.mem_filterMap] at hmem
  obtain ⟨e, _, hpe⟩ := hmem
  obtain ⟨hti, hknown⟩ := parsedOpt_some dt td e p hpe
  rw [hti, pyStrip_idem]
  exact hknown

/-- C3 witness: a concrete successful parse whose emitted record's stripped
title avoids the known-titles list. -/
theorem C3_no_known_title_emitted_witness :
    pyStrip samplePaperY.title ∉ ["Other Paper"] :=
  C3_no_known_title_emitted [sampleEntry] ["Other Paper"] "20251012" 5
    [samplePaperY] rfl samplePaperY (by simp)

/-- C4: for every markup input, known-titles set and requested maximum count,
the parser emits at most that many records, and the emitted records are an
order-preserving selection (`Sublist`) of the per-entry results in document
order. -/
theorem C4_bounded_count_and_document_order (entries : List Entry)
    (dt : List String) (td : String) (n : Nat) (ps : List Paper)
    (h : fetch_arxiv_papers entries dt td n = .ok ps) :
    ps.length ≤ n ∧ ps.Sublist (entries.filterMap (parsedOpt dt td)) := by
  refine ⟨fetchLoop_ok_length dt td n entries [] ps (by simp) h, ?_⟩
  obtain ⟨tl, htl, hsub⟩ := fetchLoop_ok_append dt td n entries [] ps h
  rw [htl, List.nil_append]
  exact hsub

/-- C4 witness: with max count 1 and a two-entry page, exactly one record is
emitted, in document order. -/
theorem C4_bounded_count_and_document_order_witness :
    ([samplePaperY].length ≤ 1 ∧
      [samplePaperY].Sublist ([sampleEntry, noDateEntry].filterMap
        (parsedOpt [] "20251012"))) :=
  C4_bounded_count_and_document_order [sampleEntry, noDateEntry] [] "20251012" 1
    [samplePaperY] rfl

/-- C5: an entry whose stripped title is already known is skipped (`.ok
none`, no error, loop unchanged) whatever its announcement date, authors or
links are — the duplicate check precedes every other extraction, so a
duplicate with a malformed date cannot raise. -/
theorem C5_duplicate_skipped_before_extraction (dt : List String) (td : String)
    (e : Entry) (hdup : pyStrip e.title ∈ dt) :
    parseEntry dt td e = .ok none ∧
      ∀ (n : Nat) (rest : List Entry) (acc : List Paper),
        fetchLoop dt td n (e :: rest) acc = fetchLoop dt td n rest acc := by
  have hskip : parseEntry dt td e = .ok none := by
    simp [parseEntry, hdup]
  exact ⟨hskip, fun n rest acc => fetchLoop_skip dt td e hskip n rest acc⟩

/-- C5 witness: a duplicate entry whose date text ("Foo 2024") would raise if
it were ever converted is skipped without error. -/
theorem C5_duplicate_skipped_before_extraction_witness :
    parseEntry ["Paper X"] "20251012" dupBadDateEntry = .ok none :=
  (C5_duplicate_skipped_before_extraction ["Paper X"] "20251012" dupBadDateEntry
    (by decide)).1

/-- C6: a non-duplicate entry whose announcement text contains no substring
matching `originally announced <Month name> <4-digit year>` is silently
dropped (`.ok none`) and the loop continues with the remaining entries. -/
theorem C6_missing_date_skipped_silently (dt : List String) (td : String)
    (e : Entry) (hdup : pyStrip e.title ∉ dt)
    (hnodate : searchAnnounced (pyStrip e.publishedInfo).data = none) :
    parseEntry dt td e = .ok none ∧
      ∀ (n : Nat) (rest : List Entry) (acc : List Paper),
        fetchLoop dt td n (e :: rest) acc = fetchLoop dt td n rest acc := by
  have hskip : parseEntry dt td e = .ok none := by
    simp [parseEntry, hdup, hnodate]
  exact ⟨hskip, fun n rest acc => fetchLoop_skip dt td e hskip n rest acc⟩

/-- C6 witness: a concrete dateless entry is skipped without error. -/
theorem C6_missing_date_skipped_silently_witness :
    parseEntry [] "20251012" noDateEntry = .ok none :=
  (C6_missing_date_skipped_silently [] "20251012" noDateEntry (by decide)
    (by decide)).1

/-- C7 counterexample: the claim says month conversion fails if and only if
the month name is unrecognized, and that every recognized month yields a
6-digit YYYYMM string.  With the recognized month "June", the matched text
"June 0000" still fails (year 0 is out of `datetime`'s range), and
"June 0024" yields the 4-digit string "2406" (`%Y` is unpadded). -/
theorem C7_month_conversion_counterexample :
    monthLookup ("June").data = some 6 ∧
      strptimeBY ("June 0000").data = .error "year 0 is out of range" ∧
      strptimeBY ("June 0024").data = .ok "2406" :=
  ⟨rfl, rfl, rfl⟩

/-- C7 (amended): month conversion maps every matched
`<Month name> <4-digit year>` text whose month name is recognized and whose
year is nonzero to the decimal year followed by the zero-padded 2-digit
month ("June 2024" yields "202406", "January 2023" yields "202301"; the
result has 6 digits whenever the year has no leading zeros), and it fails
with a ParseError if and only if the month name is unrecognized or the
4-digit year is 0000; such an error propagates out of the entry loop and
aborts the run rather than skipping the entry. -/
theorem C7_month_conversion_amended :
    (∀ (w y : List Char) (m : Nat), (∀ c ∈ w, c ≠ ' ') →
      monthLookup w = some m → y.length = 4 → y.all Char.isDigit = true →
      natOfDigits y ≠ 0 →
      strptimeBY (w ++ ' ' :: y) = .ok (Nat.repr (natOfDigits y) ++ twoDigitMonth m)) ∧
    strptimeBY ("June 2024").data = .ok "202406" ∧
    strptimeBY ("January 2023").data = .ok "202301" ∧
    (∀ (w y : List Char), (∀ c ∈ w, c ≠ ' ') →
      y.length = 4 → y.all Char.isDigit = true →
      ((∃ err, strptimeBY (w ++ ' ' :: y) = .error err) ↔
        monthLookup w = none ∨ natOfDigits y = 0)) ∧
    (∀ (dt : List String) (td : String) (e : Entry) (err : String) (n : Nat)
      (rest : List Entry) (acc : List Paper),
      parseEntry dt td e = .error err → acc.length < n →
      fetchLoop dt td n (e :: rest) acc = .error err) := by
  refine ⟨?_, rfl, rfl, ?_, ?_⟩
  · intro w y m hw hm hy4 hdig hy0
    simp [strptimeBY, takeWhile_until_space w y hw, dropWhile_until_space w y hw,
      hy4, hdig, hm, hy0]
  · intro w y hw hy4 hdig
    simp only [strptimeBY, takeWhile_until_space w y hw, dropWhile_until_space w y hw,
      hy4, hdig]
    cases hm : monthLookup w with
    | none => simp
    | some m =>
      by_cases hy0 : natOfDigits y = 0
      · simp [hy0]
      · simp [hy0]
  · intro dt td e err n rest acc hpe hlt
    simp only [fetchLoop]
    rw [if_neg (by omega), hpe]

/-- C7 witness: the amended mapping conjunct applied at "June" and "2024". -/
theorem C7_month_conversion_amended_witness :
    strptimeBY (("June").data ++ ' ' :: ("2024").data) =
      .ok (Nat.repr (natOfDigits ("2024").data) ++ twoDigitMonth 6) :=
  C7_month_conversion_amended.1 ("June").data ("2024").data 6 (by decide)
    (by decide) (by decide) (by decide) (by decide)

/-- Modelled from the spec claim's words for comparison: a sanitization that
removes every occurrence of the characters ':' and '/'. -/
def sanitizeTitleSpecWords (t : String) : String :=
  String.mk (t.data.filter (fun c => c != ':' && c != '/'))

/-- C8 counterexample: the code does not remove '/'; it replaces it with
'-'.  On the claim's own input the code yields "Fair AI A-B Study", which
differs from the removal semantics the claim's wording prescribes. -/
theorem C8_filename_counterexample :
    sanitizeTitle "Fair AI: A/B Study" = "Fair AI A-B Study" ∧
      sanitizeTitleSpecWords "Fair AI: A/B Study" = "Fair AI AB Study" ∧
      sanitizeTitle "Fair AI: A/B Study" ≠ sanitizeTitleSpecWords "Fair AI: A/B Study" :=
  ⟨rfl, rfl, by decide⟩

/-- C8 (amended): for every produced record, `download_papers` uses the local
file name `<dir>/<YearMonth>_<sanitizedTitle>.pdf`, where the sanitized title
is the record's title with every ':' removed and every '/' replaced by '-';
in particular "Fair AI: A/B Study" yields "Fair AI A-B Study". -/
theorem C8_filename_amended (http : String → Response) (dir : String) (p : Paper)
    (fs : FS)
    (hfresh : fsLookup fs (dir ++ "/" ++ p.yearMonth ++ "_" ++
      String.mk ((p.title.data.filter (fun c => c != ':')).map
        (fun c => if c = '/' then '-' else c)) ++ ".pdf") = none) :
    (download_papers http dir [p] fs).1 =
      fs ++ [(dir ++ "/" ++ p.yearMonth ++ "_" ++
        String.mk ((p.title.data.filter (fun c => c != ':')).map
          (fun c => if c = '/' then '-' else c)) ++ ".pdf",
        (http p.pdfLink).content)] ∧
    (download_papers http dir [p] fs).2 =
      ["Downloaded: " ++ p.yearMonth ++ " " ++ sanitizeTitle p.title] ∧
    sanitizeTitle "Fair AI: A/B Study" = "Fair AI A-B Study" := by
  rw [← sanitizeTitle_eq] at hfresh
  refine ⟨?_, ?_, rfl⟩
  · simp only [download_papers, ← sanitizeTitle_eq, hfresh]
    simp [download_papers]
  · simp only [download_papers, hfresh]
    simp [download_papers]

/-- C8 witness: the amended theorem at a concrete paper and empty download
directory. -/
theorem C8_filename_amended_witness :
    (download_papers httpZero "Papers/20251012" [samplePaperY] []).1 =
      [("Papers/20251012/202406_Paper Y.pdf", [])] :=
  (C8_filename_amended httpZero "Papers/20251012" samplePaperY [] rfl).1

/-- The projection `main` applies to each produced paper before appending it
to the ledger. -/
def paperToRow (today : String) (p : Paper) : Row :=
  { downloadDate := today, yearMonth := p.yearMonth, title := p.title,
    journal := p.journal, firstAuthor := p.firstAuthor }

/-- C9: whenever the fetch succeeds, the run appends the full parsed batch to
the ledger — whatever the HTTP responses were and whichever target files
already existed, so records whose download failed (non-success response) or
was skipped as already-present are recorded all the same. -/
theorem C9_full_batch_appended (entries : List Entry) (http : String → Response)
    (today : String) (n : Nat) (fs : FS) (store : Store) (papers : List Paper)
    (hfetch : fetch_arxiv_papers entries (store.map Row.title) today n = .ok papers) :
    mainRun entries http today n fs store =
      .ok ((download_papers http (BASE_DIR ++ "/" ++ today) papers fs).1,
           (download_papers http (BASE_DIR ++ "/" ++ today) papers fs).2,
           store ++ papers.map (paperToRow today)) := by
  simp only [mainRun, read_downloaded_papers, hfetch]
  rfl

/-- C9 witness: the full batch lands in the ledger even though the PDF
request returned a 404 and the target file already existed. -/
theorem C9_full_batch_appended_witness :
    mainRun [sampleEntry] http404 "20251012" 5
        [("Papers/20251012/202406_Paper Y.pdf", [1])] [oldRow] =
      .ok ([("Papers/20251012/202406_Paper Y.pdf", [1])],
           ["Already downloaded: Paper Y"],
           [oldRow, paperToRow "20251012" samplePaperY]) :=
  C9_full_batch_appended [sampleEntry] http404 "20251012" 5
    [("Papers/20251012/202406_Paper Y.pdf", [1])] [oldRow] [samplePaperY] rfl

/-- C10: for a paper whose target file does not exist yet, `download_papers`
writes the HTTP response body to `<dir>/<YearMonth>_<sanitizedTitle>.pdf` and
logs it as downloaded, for every `http` function — i.e. regardless of the
response's status code. -/
theorem C10_body_written_regardless_of_status (http : String → Response)
    (dir : String) (p : Paper) (rest : List Paper) (fs : FS)
    (hfresh : fsLookup fs
      (dir ++ "/" ++ p.yearMonth ++ "_" ++ sanitizeTitle p.title ++ ".pdf") = none) :
    fsLookup (download_papers http dir (p :: rest) fs).1
        (dir ++ "/" ++ p.yearMonth ++ "_" ++ sanitizeTitle p.title ++ ".pdf") =
      some (http p.pdfLink).content ∧
    (download_papers http dir (p :: rest) fs).2.head? =
      some ("Downloaded: " ++ p.yearMonth ++ " " ++ sanitizeTitle p.title) := by
  constructor
  · simp only [download_papers, hfresh]
    simp only [Option.isSome_none, Bool.false_eq_true, if_false]
    exact download_papers_preserves http dir rest _ _ _
      (fsLookup_append_self fs _ (http p.pdfLink).content hfresh)
  · simp only [download_papers, hfresh]
    simp

/-- C10 witness: a 404 response's body is still written and reported as
downloaded. -/
theorem C10_body_written_regardless_of_status_witness :
    fsLookup (download_papers http404 "Papers/20251012" [samplePaperY] []).1
        ("Papers/20251012" ++ "/" ++ samplePaperY.yearMonth ++ "_" ++
          sanitizeTitle samplePaperY.title ++ ".pdf") = some [7] ∧
      (download_papers http404 "Papers/20251012" [samplePaperY] []).2.head? =
        some ("Downloaded: " ++ samplePaperY.yearMonth ++ " " ++
          sanitizeTitle samplePaperY.title) :=
  C10_body_written_regardless_of_status http404 "Papers/20251012" samplePaperY []
    [] rfl

/-- C1 counterexample: starting from an empty (hence unique-titled) ledger,
a fetched page listing two distinct entries that carry the same title "Dup"
leaves the ledger with two rows titled "Dup" — the dedup check only consults
the ledger's titles as read at the start of the run, so within-page
duplicates are both appended and uniqueness is broken. -/
theorem C1_unique_titles_counterexample :
    ∃ fs log st,
      mainRun [dupTitleEntryA, dupTitleEntryB] httpZero "20251012" 5 [] [] =
        .ok (fs, log, st) ∧
      st.map Row.title = ["Dup", "Dup"] ∧ ¬ (st.map Row.title).Nodup := by
  refine ⟨_, _, _, rfl, rfl, ?_⟩
  decide

/-- C1 (amended): for every run that starts from a ledger whose title values
are unique, the ledger after the run still has unique titles, provided the
fetched results page does not list two distinct entries carrying the same
(whitespace-trimmed) title; every appended record's title was absent from
the ledger's title set at read time. -/
theorem C1_unique_titles_amended (entries : List Entry) (http : String → Response)
    (today : String) (n : Nat) (fs : FS) (store : Store)
    (res : FS × List String × Store)
    (hstore : (store.map Row.title).Nodup)
    (hpage : (entries.map (fun e => pyStrip e.title)).Nodup)
    (hrun : mainRun entries http today n fs store = .ok res) :
    (res.2.2.map Row.title).Nodup := by
  simp only [mainRun, read_downloaded_papers] at hrun
  cases hfetch : fetch_arxiv_papers entries (store.map Row.title) today n with
  | error err =>
    rw [hfetch] at hrun
    simp at hrun
  | ok papers =>
    rw [hfetch] at hrun
    simp only [Except.ok.injEq] at hrun
    rw [← hrun]
    simp only [save_all_paper_info, read_downloaded_papers, List.map_append,
      List.map_map]
    have hcomp : (Row.title ∘ fun p : Paper =>
        ({ downloadDate := today, yearMonth := p.yearMonth, title := p.title,
           journal := p.journal, firstAuthor := p.firstAuthor } : Row)) =
        fun p : Paper => p.title := rfl
    rw [hcomp]
    obtain ⟨tl, htl, hsub⟩ :=
      fetchLoop_ok_append (store.map Row.title) today n entries [] papers hfetch
    rw [List.nil_append] at htl
    have hpapers : papers.Sublist
        (entries.filterMap (parsedOpt (store.map Row.title) today)) := by
      rw [htl]
      exact hsub
    have htitles : (papers.map (fun p : Paper => p.title)).Sublist
        (entries.map (fun e => pyStrip e.title)) := by
      refine (hpapers.map (fun p : Paper => p.title)).trans ?_
      exact filterMap_map_sublist (parsedOpt (store.map Row.title) today)
        (fun p : Paper => p.title) (fun e => pyStrip e.title)
        (fun e p hep => (parsedOpt_some _ _ e p hep).1) entries
    refine List.Nodup.append hstore (List.Nodup.sublist htitles hpage) ?_
    intro a ha hb
    rw [List.mem_map] at hb
    obtain ⟨p, hp, rfl⟩ := hb
    have hpf : p ∈ entries.filterMap (parsedOpt (store.map Row.title) today) :=
      hpapers.subset hp
    rw [List.mem_filterMap] at hpf
    obtain ⟨e, _, hpe⟩ := hpf
    obtain ⟨hti, hknown⟩ := parsedOpt_some _ _ e p hpe
    rw [hti] at ha
    exact hknown ha

/-- C1 witness: a run over a fresh page with a distinct title keeps the
ledger's titles unique. -/
theorem C1_unique_titles_amended_witness :
    ((["Old Paper", "Paper Y"] : List String)).Nodup :=
  C1_unique_titles_amended [sampleEntry] httpZero "20251012" 5 [] [oldRow] _
    (by decide) (by decide) rfl

end PaperCrawler
